import Mathlib

/-!
Verification development for the conversational query-router core
(`assistant/router.py`, `assistant/memory.py`, `assistant/prompts.py`,
`tools/base.py`, `tools/weather.py`, `tools/stock.py`).

The Python code is shallowly embedded:
* JSON values (`json.loads` / `json.dumps`) are modelled by the inductive
  type `Json` together with an executable parser and serializers.
* The conversation memory is modelled with value semantics
  (`ConversationMemory`); Python's reference semantics, which matter only
  for the snapshot-aliasing property of `get_messages`, are modelled
  separately with an explicit heap (`Heap`, `MemRef`).
* The router's `process_query` async generator is modelled as a pure
  function from an environment (`World`) describing the outcomes of the
  external effects (the two model calls and the tool execution) to the
  emitted chunks, the final memory, and the trace of external calls.
-/

/-- JSON values as produced by Python's `json.loads`.
`num m e f` denotes the number `m * 10 ^ e`; `f` records whether Python
would represent it as a `float` (a fraction or exponent was present in the
literal).  `special` covers the non-standard constants `NaN`, `Infinity`
and `-Infinity` that Python's `json.loads` accepts by default. -/
inductive Json where
  | null
  | bool (b : Bool)
  | num (m : Int) (e : Int) (isFloat : Bool)
  | str (s : String)
  | arr (items : List Json)
  | obj (entries : List (String × Json))
  | special (s : String)

/-- Python dict assignment `d[k] = v`: replace the value at an existing
key in place, otherwise append the new binding at the end. -/
def insertEntry : List (String × Json) → String → Json → List (String × Json)
  | [], k, v => [(k, v)]
  | (k', v') :: rest, k, v =>
    if k' == k then (k', v) :: rest else (k', v') :: insertEntry rest k v

/-- Python `d.get(k)` / `k in d` lookup on a parsed JSON object.
Objects built by the parser have distinct keys (`insertEntry`), so a first
match is the only match. -/
def dictGet : List (String × Json) → String → Option Json
  | [], _ => none
  | (k', v) :: rest, k => if k' == k then some v else dictGet rest k

/-- Python `k in d`. -/
def hasKey (entries : List (String × Json)) (k : String) : Bool :=
  (dictGet entries k).isSome

/-- `d.get(k)` when `d` is an arbitrary JSON value known to be a dict
(`none` on non-dicts; unreachable in the modelled code paths). -/
def jsonGet : Json → String → Option Json
  | .obj entries, k => dictGet entries k
  | _, _ => none

/-- Python truthiness of a JSON value (`bool(x)`). -/
def truthy : Json → Bool
  | .null => false
  | .bool b => b
  | .num m _ _ => m != 0
  | .str s => !s.isEmpty
  | .arr items => !items.isEmpty
  | .obj entries => !entries.isEmpty
  | .special _ => true

/-- Python truthiness of `d.get(k)`-style optional values (`None` is falsy). -/
def truthyOpt : Option Json → Bool
  | none => false
  | some j => truthy j

/- ### The JSON parser (model of Python `json.loads`) -/

/-- The whitespace skipped between JSON tokens (`' \t\n\r'`). -/
def isJsonWs (c : Char) : Bool :=
  ([' ', '\t', '\n', '\r'] : List Char).contains c

/-- One hexadecimal digit, as a value below 16. -/
def hexDigit (c : Char) : Option Nat :=
  let n := c.toNat
  if 48 ≤ n ∧ n ≤ 57 then some (n - 48)
  else if 97 ≤ n ∧ n ≤ 102 then some (n - 87)
  else if 65 ≤ n ∧ n ≤ 70 then some (n - 55)
  else none

/-- Decode a `\uXXXX` quadruple. -/
def hexQuad (a b c d : Char) : Option Nat :=
  match hexDigit a, hexDigit b, hexDigit c, hexDigit d with
  | some x1, some x2, some x3, some x4 => some (x1 * 4096 + x2 * 256 + x3 * 16 + x4)
  | _, _, _, _ => none

/-- Body of a JSON string literal, after the opening quote.  Returns the
decoded string and the remaining input after the closing quote.  Raw
control characters are rejected (Python's strict mode); surrogate pairs
are combined; a lone surrogate (which Python would keep as a lone
surrogate code unit) is mapped to U+FFFD since Lean characters are
scalar values. -/
def parseStringBody : Nat → List Char → List Char → Option (String × List Char)
  | 0, _, _ => none
  | _ + 1, _, [] => none
  | _ + 1, acc, '"' :: rest => some (String.mk acc.reverse, rest)
  | fuel + 1, acc, cs =>
    match cs with
    | '\\' :: '"' :: rest => parseStringBody fuel ('"' :: acc) rest
    | '\\' :: '\\' :: rest => parseStringBody fuel ('\\' :: acc) rest
    | '\\' :: '/' :: rest => parseStringBody fuel ('/' :: acc) rest
    | '\\' :: 'b' :: rest => parseStringBody fuel ('\x08' :: acc) rest
    | '\\' :: 'f' :: rest => parseStringBody fuel ('\x0c' :: acc) rest
    | '\\' :: 'n' :: rest => parseStringBody fuel ('\n' :: acc) rest
    | '\\' :: 'r' :: rest => parseStringBody fuel ('\r' :: acc) rest
    | '\\' :: 't' :: rest => parseStringBody fuel ('\t' :: acc) rest
    | '\\' :: 'u' :: a :: b :: c :: d :: rest =>
      match hexQuad a b c d with
      | none => none
      | some n =>
        if 55296 ≤ n ∧ n < 56320 then
          match rest with
          | '\\' :: 'u' :: a2 :: b2 :: c2 :: d2 :: rest2 =>
            match hexQuad a2 b2 c2 d2 with
            | some n2 =>
              if 56320 ≤ n2 ∧ n2 < 57344 then
                parseStringBody fuel
                  (Char.ofNat ((n - 55296) * 1024 + (n2 - 56320) + 65536) :: acc) rest2
              else parseStringBody fuel (Char.ofNat 65533 :: acc) rest
            | none => none
          | _ => parseStringBody fuel (Char.ofNat 65533 :: acc) rest
        else if 56320 ≤ n ∧ n < 57344 then
          parseStringBody fuel (Char.ofNat 65533 :: acc) rest
        else parseStringBody fuel (Char.ofNat n :: acc) rest
    | '\\' :: _ => none
    | [] => none
    | c :: rest => if c.toNat < 0x20 then none else parseStringBody fuel (c :: acc) rest

/-- A complete JSON string literal body (after the opening quote); every
step of `parseStringBody` consumes at least one character, so the fuel is
always sufficient. -/
def parseString (cs : List Char) : Option (String × List Char) :=
  parseStringBody (cs.length + 1) [] cs

/-- Digits of a decimal literal as a natural number (most significant first). -/
def digitsToNat (acc : Nat) : List Char → Nat
  | [] => acc
  | c :: rest => digitsToNat (acc * 10 + (c.toNat - '0'.toNat)) rest

/-- A JSON number, per the `NUMBER_RE` regex used by Python's decoder:
`-?(0|[1-9]\d*)(\.\d+)?([eE][-+]?\d+)?`.  A leading-zero integer part
stops after the zero, leaving the remaining digits unconsumed (the caller
then fails on the leftover input, as Python does). -/
def parseNumber (cs : List Char) : Option (Json × List Char) :=
  let signSplit : Bool × List Char :=
    match cs with
    | '-' :: tl => (true, tl)
    | other => (false, other)
  let neg := signSplit.1
  let cs1 := signSplit.2
  match cs1 with
  | '0' :: rest => some (finishNumber neg [] rest)
  | c :: rest =>
    if c.isDigit then
      let digits := rest.takeWhile Char.isDigit
      some (finishNumber neg (c :: digits) (rest.dropWhile Char.isDigit))
    else none
  | [] => none
where
  /-- Continue after the integer part (`intDigits` is empty for a literal `0`):
  the optional fraction and exponent. -/
  finishNumber (neg : Bool) (intDigits : List Char) (cs : List Char) :
      Json × List Char :=
    let intVal := digitsToNat 0 intDigits
    let (fracDigits, cs2) := match cs with
      | '.' :: c :: rest =>
        if c.isDigit then (c :: rest.takeWhile Char.isDigit, rest.dropWhile Char.isDigit)
        else ([], cs)
      | _ => ([], cs)
    let (expVal, hasExp, cs3) := parseExponent cs2
    let mantissa : Nat := digitsToNat intVal fracDigits
    let m : Int := if neg then -(mantissa : Int) else (mantissa : Int)
    let e : Int := expVal - (fracDigits.length : Int)
    (Json.num m e (!fracDigits.isEmpty || hasExp), cs3)
  /-- Optional `[eE][-+]?digits` exponent; yields `(0, false, cs)` when absent. -/
  parseExponent (cs : List Char) : Int × Bool × List Char :=
    match cs with
    | c :: rest =>
      if c == 'e' || c == 'E' then
        let (eneg, rest1) := match rest with
          | '-' :: r => (true, r)
          | '+' :: r => (false, r)
          | _ => (false, rest)
        match rest1 with
        | d :: r2 =>
          if d.isDigit then
            let digits := d :: r2.takeWhile Char.isDigit
            let v : Int := (digitsToNat 0 digits : Int)
            ((if eneg then -v else v), true, r2.dropWhile Char.isDigit)
          else (0, false, cs)
        | [] => (0, false, cs)
      else (0, false, cs)
    | [] => (0, false, cs)

mutual

/-- One JSON value, starting at a non-whitespace position.  The fuel
argument bounds the nesting depth; `json_loads` passes the input length,
which is always sufficient since every recursive step consumes input. -/
def parseVal : Nat → List Char → Option (Json × List Char)
  | 0, _ => none
  | _ + 1, [] => none
  | fuel + 1, cs =>
    match cs with
    | '"' :: rest => (parseString rest).map fun p => (Json.str p.1, p.2)
    | '\x7b' :: rest =>
      let r1 := rest.dropWhile isJsonWs
      match r1 with
      | '\x7d' :: r2 => some (Json.obj [], r2)
      | _ => (parseObjTail fuel [] r1).map fun p => (Json.obj p.1, p.2)
    | '[' :: rest =>
      let r1 := rest.dropWhile isJsonWs
      match r1 with
      | ']' :: r2 => some (Json.arr [], r2)
      | _ => (parseArrTail fuel [] r1).map fun p => (Json.arr p.1, p.2)
    | 't' :: 'r' :: 'u' :: 'e' :: rest => some (Json.bool true, rest)
    | 'f' :: 'a' :: 'l' :: 's' :: 'e' :: rest => some (Json.bool false, rest)
    | 'n' :: 'u' :: 'l' :: 'l' :: rest => some (Json.null, rest)
    | 'N' :: 'a' :: 'N' :: rest => some (Json.special "NaN", rest)
    | 'I' :: 'n' :: 'f' :: 'i' :: 'n' :: 'i' :: 't' :: 'y' :: rest =>
      some (Json.special "Infinity", rest)
    | '-' :: 'I' :: 'n' :: 'f' :: 'i' :: 'n' :: 'i' :: 't' :: 'y' :: rest =>
      some (Json.special "-Infinity", rest)
    | _ => parseNumber cs

/-- Members of a JSON object after the opening brace (first key expected
at the head of the input, whitespace already skipped). -/
def parseObjTail : Nat → List (String × Json) → List Char →
    Option (List (String × Json) × List Char)
  | 0, _, _ => none
  | fuel + 1, acc, cs =>
    match cs with
    | '"' :: r =>
      match parseString r with
      | none => none
      | some (k, r1) =>
        match r1.dropWhile isJsonWs with
        | ':' :: r2 =>
          match parseVal fuel (r2.dropWhile isJsonWs) with
          | none => none
          | some (v, r3) =>
            let acc2 := insertEntry acc k v
            match r3.dropWhile isJsonWs with
            | ',' :: r4 => parseObjTail fuel acc2 (r4.dropWhile isJsonWs)
            | '\x7d' :: r4 => some (acc2, r4)
            | _ => none
        | _ => none
    | _ => none

/-- Items of a JSON array after the opening bracket (first item expected
at the head of the input, whitespace already skipped). -/
def parseArrTail : Nat → List Json → List Char → Option (List Json × List Char)
  | 0, _, _ => none
  | fuel + 1, acc, cs =>
    match parseVal fuel cs with
    | none => none
    | some (v, r1) =>
      match r1.dropWhile isJsonWs with
      | ',' :: r2 => parseArrTail fuel (acc ++ [v]) (r2.dropWhile isJsonWs)
      | ']' :: r2 => some (acc ++ [v], r2)
      | _ => none

end

/-- Model of Python `json.loads`: skip surrounding whitespace, parse one
value, and require that nothing but whitespace follows (`Extra data`
otherwise).  `none` models a raised `json.JSONDecodeError`. -/
def json_loads (s : String) : Option Json :=
  let cs := s.data.dropWhile isJsonWs
  match parseVal (cs.length + 1) cs with
  | some (v, rest) => if (rest.dropWhile isJsonWs).isEmpty then some v else none
  | none => none

theorem json_loads_object_example :
    json_loads "\x7b\"use_tool\": true\x7d" = some (Json.obj [("use_tool", Json.bool true)]) := by
  rfl
theorem json_loads_array_example : json_loads " [1, 2.5, \"a\", null, \x7b\x7d] " =
    some (Json.arr [Json.num 1 0 false, Json.num 25 (-1) true, Json.str "a", Json.null,
      Json.obj []]) := by rfl
theorem json_loads_prose_none : json_loads "nonsense" = none := by rfl
theorem json_loads_trailing_none : json_loads "\x7b\"a\": 1\x7d trailing" = none := by rfl
theorem json_loads_empty_none : json_loads "" = none := by rfl
theorem json_loads_duplicate_key_last_wins :
    json_loads "\x7b\"a\": \x7b\"b\": [true, false]\x7d, \"a\": 2\x7d" =
    some (Json.obj [("a", Json.num 2 0 false)]) := by rfl

/- ### Serialization (model of Python `json.dumps`) -/

/-- One lowercase hexadecimal digit. -/
def hexChar (n : Nat) : Char :=
  if n < 10 then Char.ofNat ('0'.toNat + n) else Char.ofNat ('a'.toNat + n - 10)

/-- Four lowercase hexadecimal digits, as in Python's `\uXXXX` escapes. -/
def toHex4 (n : Nat) : String :=
  String.mk [hexChar (n / 4096 % 16), hexChar (n / 256 % 16), hexChar (n / 16 % 16),
    hexChar (n % 16)]

/-- Escape of one character inside a dumped JSON string
(`json.dumps` default, `ensure_ascii=True`). -/
def jsonEscapeChar (c : Char) : String :=
  if c = '"' then "\\\""
  else if c = '\\' then "\\\\"
  else if c = '\n' then "\\n"
  else if c = '\r' then "\\r"
  else if c = '\t' then "\\t"
  else if c = '\x08' then "\\b"
  else if c = '\x0c' then "\\f"
  else if c.toNat < 0x20 then "\\u" ++ toHex4 c.toNat
  else if c.toNat < 0x7f then String.singleton c
  else if c.toNat ≤ 0xFFFF then "\\u" ++ toHex4 c.toNat
  else
    "\\u" ++ toHex4 (0xD800 + (c.toNat - 0x10000) / 0x400) ++
      "\\u" ++ toHex4 (0xDC00 + (c.toNat - 0x10000) % 0x400)

/-- A dumped JSON string literal. -/
def jsonQuote (s : String) : String :=
  "\"" ++ String.join (s.data.map jsonEscapeChar) ++ "\""

/-- Drop trailing `'0'` characters (normalizing a float's fraction). -/
def dropTrailingZeros (s : String) : String :=
  String.mk (s.data.reverse.dropWhile (fun c => c == '0')).reverse

/-- Rendering of a JSON number.  Integers print exactly as Python does;
for floats the decimal expansion `m * 10 ^ e` is printed directly (Python
prints the shortest repr of the nearest double - for the round decimal
values appearing in this development the two agree). -/
def renderNum (m : Int) (e : Int) (isFloat : Bool) : String :=
  if !isFloat then toString m
  else if 0 ≤ e then toString (m * (10 : Int) ^ e.toNat) ++ ".0"
  else
    let sign := if m < 0 then "-" else ""
    let digits := toString m.natAbs
    let k := (-e).toNat
    if digits.length > k then
      let intPart := String.mk (digits.data.take (digits.length - k))
      let frac := dropTrailingZeros (String.mk (digits.data.drop (digits.length - k)))
      sign ++ intPart ++ "." ++ (if frac.isEmpty then "0" else frac)
    else
      let frac := dropTrailingZeros
        (String.mk (List.replicate (k - digits.length) '0') ++ digits)
      sign ++ "0." ++ (if frac.isEmpty then "0" else frac)

mutual

/-- Model of `json.dumps(x)` with default arguments
(separators `", "` and `": "`, `ensure_ascii=True`). -/
def json_dumps : Json → String
  | .null => "null"
  | .bool true => "true"
  | .bool false => "false"
  | .num m e f => renderNum m e f
  | .str s => jsonQuote s
  | .arr items => "[" ++ dumpsItems items ++ "]"
  | .obj entries => "\x7b" ++ dumpsEntries entries ++ "\x7d"
  | .special s => s

/-- Comma-separated array items. -/
def dumpsItems : List Json → String
  | [] => ""
  | [x] => json_dumps x
  | x :: y :: xs => json_dumps x ++ ", " ++ dumpsItems (y :: xs)

/-- Comma-separated object members. -/
def dumpsEntries : List (String × Json) → String
  | [] => ""
  | [(k, v)] => jsonQuote k ++ ": " ++ json_dumps v
  | (k, v) :: e :: es => jsonQuote k ++ ": " ++ json_dumps v ++ ", " ++ dumpsEntries (e :: es)

end

/-- `n` levels of two-space indentation. -/
def indentOf (n : Nat) : String := String.mk (List.replicate (2 * n) ' ')

mutual

/-- Model of `json.dumps(x, indent=2)` at indentation level `level`
(item separator `","`, key separator `": "`). -/
def dumpsInd : Nat → Json → String
  | _, .null => "null"
  | _, .bool true => "true"
  | _, .bool false => "false"
  | _, .num m e f => renderNum m e f
  | _, .str s => jsonQuote s
  | _, .special s => s
  | _, .arr [] => "[]"
  | level, .arr (x :: xs) =>
    "[\n" ++ dumpsIndItems (level + 1) (x :: xs) ++ "\n" ++ indentOf level ++ "]"
  | _, .obj [] => "\x7b\x7d"
  | level, .obj (e :: es) =>
    "\x7b\n" ++ dumpsIndEntries (level + 1) (e :: es) ++ "\n" ++ indentOf level ++ "\x7d"

/-- Indented array items, one per line. -/
def dumpsIndItems : Nat → List Json → String
  | _, [] => ""
  | level, [x] => indentOf level ++ dumpsInd level x
  | level, x :: y :: xs =>
    indentOf level ++ dumpsInd level x ++ ",\n" ++ dumpsIndItems level (y :: xs)

/-- Indented object members, one per line. -/
def dumpsIndEntries : Nat → List (String × Json) → String
  | _, [] => ""
  | level, [(k, v)] => indentOf level ++ jsonQuote k ++ ": " ++ dumpsInd level v
  | level, (k, v) :: e :: es =>
    indentOf level ++ jsonQuote k ++ ": " ++ dumpsInd level v ++ ",\n" ++
      dumpsIndEntries level (e :: es)

end

/-- Model of `json.dumps(x, indent=2)`. -/
def json_dumps_indent2 (j : Json) : String := dumpsInd 0 j

mutual

/-- Python `repr()` of a JSON-shaped value (used for values nested inside
a dict or list when the router interpolates them into an f-string).
String escaping inside the repr is elided - the values this development
evaluates it on contain no quotes or control characters. -/
def pyRepr : Json → String
  | .null => "None"
  | .bool true => "True"
  | .bool false => "False"
  | .num m e f => renderNum m e f
  | .str s => "\x27" ++ s ++ "\x27"
  | .arr items => "[" ++ pyReprItems items ++ "]"
  | .obj entries => "\x7b" ++ pyReprEntries entries ++ "\x7d"
  | .special "NaN" => "nan"
  | .special "Infinity" => "inf"
  | .special "-Infinity" => "-inf"
  | .special s => s

/-- Comma-separated list items of a Python repr. -/
def pyReprItems : List Json → String
  | [] => ""
  | [x] => pyRepr x
  | x :: y :: xs => pyRepr x ++ ", " ++ pyReprItems (y :: xs)

/-- Comma-separated dict members of a Python repr. -/
def pyReprEntries : List (String × Json) → String
  | [] => ""
  | [(k, v)] => "\x27" ++ k ++ "\x27: " ++ pyRepr v
  | (k, v) :: e :: es => "\x27" ++ k ++ "\x27: " ++ pyRepr v ++ ", " ++ pyReprEntries (e :: es)

end

/-- Python `str()` of a JSON-shaped value (top-level strings print bare). -/
def pyStr : Json → String
  | .str s => s
  | j => pyRepr j

/-- Python `str()` where the value may be `None` (a missing dict entry). -/
def pyStrOpt : Option Json → String
  | none => "None"
  | some j => pyStr j

/- ### Fenced-code-block scanning (model of
`re.findall(r'```(?:json)?\s*([\s\S]*?)\s*```', text)` in `_extract_tool_call`) -/

/-- Python's `\s` for ASCII text: `[ \t\n\r\f\v]`. -/
def isPyWs (c : Char) : Bool :=
  ([' ', '\t', '\n', '\r', '\x0c', '\x0b'] : List Char).contains c

/-- Split the input at the first occurrence of a triple-backtick fence:
returns the characters before the fence and those after it.
`none` when no fence occurs. -/
def splitAtFence : List Char → Option (List Char × List Char)
  | '`' :: '`' :: '`' :: rest => some ([], rest)
  | c :: rest =>
    match splitAtFence rest with
    | some (p, s) => some (c :: p, s)
    | none => none
  | [] => none

/-- Strip trailing `\s*` from a captured block body. -/
def trimTrailingPyWs (cs : List Char) : List Char :=
  (cs.reverse.dropWhile isPyWs).reverse

/-- One scanning pass of `re.findall` for the fenced-block pattern: find
an opening fence, optionally consume a literal `json` tag, skip leading
whitespace, capture lazily up to the next fence, strip trailing
whitespace from the capture, and continue after the closing fence.
The fuel (the input length) bounds the number of matches; each match
consumes at least the two fences. -/
def scanBlocks : Nat → List Char → List String
  | 0, _ => []
  | fuel + 1, cs =>
    match splitAtFence cs with
    | none => []
    | some (_, afterOpen) =>
      let afterTag :=
        match afterOpen with
        | 'j' :: 's' :: 'o' :: 'n' :: r => r
        | _ => afterOpen
      let body := afterTag.dropWhile isPyWs
      match splitAtFence body with
      | none => []
      | some (content, rest) =>
        String.mk (trimTrailingPyWs content) :: scanBlocks fuel rest

/-- All fenced-code-block captures of the routing text, in order
(`json_matches` on line 249 of `router.py`). -/
def findCodeBlocks (text : String) : List String :=
  scanBlocks text.length text.data

/-- The ordered candidate substrings tried by `_extract_tool_call`:
the fenced blocks if any matched, otherwise the whole text
(lines 249-253 of `router.py`). -/
def candidates (text : String) : List String :=
  let json_matches := findCodeBlocks text
  if json_matches.isEmpty then [text] else json_matches

/-- The candidate loop of `_extract_tool_call` (lines 255-265): parse each
candidate; return the first that parses to a dict containing a
`use_tool` key; candidates that fail to parse, or parse to something
else, are skipped. -/
def firstToolCall : List String → Option Json
  | [] => none
  | c :: rest =>
    match json_loads c with
    | some (Json.obj entries) =>
      if hasKey entries "use_tool" then some (Json.obj entries) else firstToolCall rest
    | some _ => firstToolCall rest
    | none => firstToolCall rest

/-- Model of `QueryRouter._extract_tool_call` (`router.py` lines 238-265). -/
def extract_tool_call (text : String) : Option Json :=
  firstToolCall (candidates text)

theorem findCodeBlocks_two_blocks :
    findCodeBlocks "pre ```json\n \x7b\"a\": 1\x7d \n``` mid ```  [2] ``` post" =
      ["\x7b\"a\": 1\x7d", "[2]"] := by rfl
theorem findCodeBlocks_no_fence : findCodeBlocks "no fences here" = [] := by rfl
theorem findCodeBlocks_unclosed : findCodeBlocks "one ``` unclosed" = [] := by rfl
theorem extract_tool_call_fenced_example :
    extract_tool_call "```json\n\x7b\"use_tool\": true, \"tool_name\": \"get_weather\"\x7d\n```" =
      some (Json.obj [("use_tool", Json.bool true), ("tool_name", Json.str "get_weather")]) := by
  rfl
theorem extract_tool_call_prose_none :
    extract_tool_call "The capital of France is Paris." = none := by rfl

/- ### Conversation memory (`assistant/memory.py`), value semantics -/

/-- One ledger entry: the message dicts stored in
`ConversationMemory.messages`.  `tool_name` is present only on tool
turns; a tool turn's `content` is the `json.dumps` of the payload. -/
structure Msg where
  role : String
  content : String
  tool_name : Option String := none
deriving DecidableEq, Repr

/-- `ConversationMemory.__init__` state: `max_turns` and the message list. -/
structure ConversationMemory where
  max_turns : Nat
  messages : List Msg
deriving DecidableEq, Repr

/-- `ConversationMemory._truncate_history` (lines 107-124): if the list
exceeds `2 * max_turns` entries, drop the computed excess from the front,
keeping a leading system message if one exists. -/
def truncate_history (m : ConversationMemory) : ConversationMemory :=
  if m.messages.length ≤ m.max_turns * 2 then m
  else
    let has_system : Bool :=
      match m.messages with
      | msg :: _ => msg.role == "system"
      | [] => false
    let start_idx := if has_system then 1 else 0
    let num_to_remove :=
      m.messages.length - m.max_turns * 2 - (if has_system then 1 else 0)
    { m with
      messages := m.messages.take start_idx ++ m.messages.drop (start_idx + num_to_remove) }

/-- `ConversationMemory.add_user_message`. -/
def add_user_message (m : ConversationMemory) (content : String) : ConversationMemory :=
  truncate_history
    { m with messages := m.messages ++ [{ role := "user", content := content }] }

/-- `ConversationMemory.add_assistant_message`. -/
def add_assistant_message (m : ConversationMemory) (content : String) : ConversationMemory :=
  truncate_history
    { m with messages := m.messages ++ [{ role := "assistant", content := content }] }

/-- `ConversationMemory.add_tool_message`: the payload is stored
serialized (`json.dumps(content)`). -/
def add_tool_message (m : ConversationMemory) (tool_name : String) (content : Json) :
    ConversationMemory :=
  truncate_history
    { m with
      messages := m.messages ++
        [{ role := "tool", content := json_dumps content, tool_name := some tool_name }] }

/-- `ConversationMemory.get_messages` returns `self.messages.copy()`; with
value semantics the copy is the list itself.  (The aliasing behaviour of
the shallow copy is modelled separately with an explicit heap below.) -/
def get_messages (m : ConversationMemory) : List Msg :=
  m.messages

/-- A fresh ledger (`ConversationMemory(max_turns)`). -/
def initMemory (max_turns : Nat) : ConversationMemory :=
  { max_turns := max_turns, messages := [] }

/- ### Prompt synthesis (`assistant/prompts.py`) -/

/-- The routing system-prompt template before the `{tools_json}`
interpolation point (`get_system_prompt`, the f-string's doubled braces
rendered literally). -/
def systemPromptPrefix : String :=
  "You are an intelligent Q&A Assistant designed to help users by answering questions and performing actions.\n\nYour capabilities:\n1. Answer general knowledge questions directly using your built-in knowledge\n2. Call external tools to fetch real-time or specialized information when needed\n\nAVAILABLE TOOLS:\n"

/-- The routing system-prompt template after the `{tools_json}`
interpolation point. -/
def systemPromptSuffix : String :=
  "\n\nINSTRUCTIONS:\n- For general knowledge questions that don\x27t require real-time data (like \"Who is Albert Einstein?\"), answer directly.\n- For questions about real-time information (like weather, stock prices) or specialized data, use the appropriate tool.\n- Analyze each query carefully to determine if it requires a tool or can be answered with general knowledge.\n\nHOW TO USE TOOLS:\nIf a query requires a tool, respond in the following format:\n\n```json\n\x7b\n  \"use_tool\": true,\n  \"tool_name\": \"[name of the tool]\",\n  \"tool_parameters\": \x7b\n    \"[parameter name]\": \"[parameter value]\",\n    ...\n  \x7d\n\x7d\n```\n\nEXAMPLES:\n\nExample 1 (General Knowledge):\nUser: \"What is the capital of France?\"\nAssistant: \"The capital of France is Paris.\"\n\nExample 2 (Weather Tool):\nUser: \"What\x27s the weather in New York right now?\"\nAssistant: ```json\n\x7b\n  \"use_tool\": true,\n  \"tool_name\": \"get_weather\",\n  \"tool_parameters\": \x7b\n    \"location\": \"New York\"\n  \x7d\n\x7d\n\nExample 3 (General Knowledge):\nUser: \"What is the season in Delhi if current month is March?\"\nAssistant: \"It is spring season.\"\n```\n\nExample 4 (Stock Tool):\nUser: \"What\x27s the current price of Apple stock?\"\nAssistant: ```json\n\x7b\n  \"use_tool\": true,\n  \"tool_name\": \"get_stock_price\",\n  \"tool_parameters\": \x7b\n    \"symbol\": \"AAPL\"\n  \x7d\n\x7d\n```\n\nIMPORTANT:\n- Always format tool calls as valid JSON.\n- Only use the tools that are listed above.\n- If a question is ambiguous, ask for clarification instead of using a tool. Better to clarify than to answer wrongly.\n"

/-- `get_system_prompt(tools)`: embeds `json.dumps(tools, indent=2)` into
the template. -/
def get_system_prompt (tools : List Json) : String :=
  systemPromptPrefix ++ json_dumps_indent2 (Json.arr tools) ++ systemPromptSuffix

/-- `get_tool_response_prompt(tool_name, tool_response, user_query)`. -/
def get_tool_response_prompt (tool_name : String) (tool_response : Json)
    (user_query : String) : String :=
  "The user asked: \"" ++ user_query ++ "\"\n\nYou used the \"" ++ tool_name ++
    "\" tool, which returned the following information:\n\n" ++
    json_dumps_indent2 tool_response ++
    "\n\nPlease format this information into a natural, helpful response that directly answers the user\x27s question.\nIf there was an error in the tool response, explain what went wrong in a friendly manner and suggest alternatives if possible.\n"

/-- The generic system prompt of `_answer_with_llm` (router.py line 210):
general knowledge only, no tool context. -/
def genericSystemPrompt : String :=
  "You are a helpful AI assistant. Answer the user\x27s question based on your general knowledge."

/- ### The query router (`assistant/router.py`) -/

/-- A registered capability as the router sees it (`BaseTool`):
name, description and parameter schema.  The behaviour of its
asynchronous `execute` is part of the environment (`World.tool`). -/
structure ToolDesc where
  tool_name : String
  description : String
  parameters : Json

/-- `BaseTool.to_dict`. -/
def toolToDict (t : ToolDesc) : Json :=
  Json.obj [("name", Json.str t.tool_name), ("description", Json.str t.description),
    ("parameters", t.parameters)]

/-- One `{role, content}` message sent to the model client. -/
structure ChatMessage where
  role : String
  content : String
deriving DecidableEq, Repr

/-- The outcome of one streaming model call: the chunks delivered, and
optionally an exception raised after them (a call that fails before
streaming anything has `chunks = []`). -/
structure ModelResult where
  chunks : List String
  err : Option String
deriving DecidableEq, Repr

/-- The environment of one `process_query` run: the outcome of the
routing call, of the (at most one) second call, and of the (at most one)
tool execution - `Except.error e` models `execute` raising `e`. -/
structure World where
  routing : ModelResult
  second : ModelResult
  tool : Except String Json

/-- Which of the three model-call sites in `router.py` issued a call:
the routing call (line 98), the tool-result-formatting call (line 153),
or the general-knowledge fallback call (line 216). -/
inductive CallKind where
  | routing
  | format
  | fallback
deriving DecidableEq, Repr

/-- Trace events: each external call made during one query, in order. -/
inductive Ev where
  | modelCall (kind : CallKind) (msgs : List ChatMessage)
  | toolExec (name : String) (params : Json)

/-- The observable result of one `process_query` run: the chunks yielded
to the caller in order, the final memory, and the trace of external
calls. -/
structure QueryResult where
  output : List String
  memory : ConversationMemory
  events : List Ev

/-- Model of `traceback.format_exc()` for a contained exception. -/
def format_exc (e : String) : String :=
  "Traceback (most recent call last):\n" ++ e

/-- The `{error, details}` payload the router synthesizes when a tool's
`execute` raises (router.py lines 138-144). -/
def synthToolError (tool_name e : String) : Json :=
  Json.obj [("error", Json.str ("Error executing tool " ++ tool_name ++ ": " ++ e)),
    ("details", Json.str (format_exc e))]

/-- The tool response the router proceeds with: the returned payload, or
the synthesized `{error, details}` if `execute` raised. -/
def toolResponseOf (tool_name : String) : Except String Json → Json
  | .ok p => p
  | .error e => synthToolError tool_name e

/-- The tool-call test on line 118 of `router.py`:
`if tool_call and tool_call.get("use_tool", False)` (Python truthiness of
the dict, then of the `use_tool` value). -/
def useToolCond (tool_call : Json) : Bool :=
  truthy tool_call && truthy ((jsonGet tool_call "use_tool").getD (Json.bool false))

/-- The user-visible notice emitted when the requested capability is not
registered (router.py line 176). -/
def unavailableNotice (tool_name : Option Json) : String :=
  "I attempted to use a tool called \x27" ++ pyStrOpt tool_name ++
    "\x27, but it\x27s not available. Let me answer based on what I know."

/-- The message list of the routing call (router.py lines 67-92): system
prompt, prior history filtered to user/assistant roles (excluding the
just-appended user turn), then the current query. -/
def buildRoutingMessages (tools : List ToolDesc) (mem1 : ConversationMemory)
    (query : String) : List ChatMessage :=
  ⟨"system", get_system_prompt (tools.map toolToDict)⟩ ::
    ((get_messages mem1).dropLast.filterMap fun m =>
      if m.role = "user" ∨ m.role = "assistant" then some ⟨m.role, m.content⟩ else none) ++
    [⟨"user", query⟩]

/-- `self.tool_map = {tool.tool_name: tool for tool in tools}` lookup of
`tool_call.get("tool_name")`: only a string key can be present; a
duplicate registration resolves to the later tool, as in a dict
comprehension. -/
def lookupToolName (tools : List ToolDesc) (tn : Option Json) : Option ToolDesc :=
  match tn with
  | some (Json.str s) => tools.reverse.find? (fun t => t.tool_name == s)
  | _ => none

/-- Model of `QueryRouter._answer_with_llm` (router.py lines 198-236):
a fresh two-message context with the generic system prompt; on success
the accumulated text is appended as an assistant turn; a raise is caught
inside the method and surfaced as an apology chunk, with no append. -/
def answer_with_llm (mem : ConversationMemory) (query : String) (mr : ModelResult) :
    QueryResult :=
  let messages : List ChatMessage := [⟨"system", genericSystemPrompt⟩, ⟨"user", query⟩]
  match mr.err with
  | none =>
    { output := mr.chunks,
      memory := add_assistant_message mem (String.join mr.chunks),
      events := [.modelCall .fallback messages] }
  | some e =>
    { output := mr.chunks ++
        ["I encountered an error providing a general knowledge answer: " ++ e],
      memory := mem,
      events := [.modelCall .fallback messages] }

/-- Model of `QueryRouter.process_query` (router.py lines 51-196).  The
user turn is appended first; the routing call's chunks are accumulated
(not yielded); the reply is scanned for a tool call; the three paths
(tool dispatch / unknown-tool fallback / direct answer) follow the
source, and an exception at either model call is caught by the outer
handler, which yields a single apology chunk. -/
def processQuery (tools : List ToolDesc) (mem : ConversationMemory) (query : String)
    (w : World) : QueryResult :=
  let mem1 := add_user_message mem query
  let messages := buildRoutingMessages tools mem1 query
  match w.routing.err with
  | some e =>
    { output := ["I encountered an error: " ++ e], memory := mem1,
      events := [.modelCall .routing messages] }
  | none =>
    let full_response := String.join w.routing.chunks
    match extract_tool_call full_response with
    | some tool_call =>
      if useToolCond tool_call then
        let tool_name := jsonGet tool_call "tool_name"
        let tool_parameters := (jsonGet tool_call "tool_parameters").getD (Json.obj [])
        match lookupToolName tools tool_name with
        | some tool =>
          let indicator := "I\x27ll check that for you using " ++ tool.tool_name ++ "...\n\n"
          let tool_response := toolResponseOf tool.tool_name w.tool
          let mem2 := add_tool_message mem1 tool.tool_name tool_response
          let fmtMsgs : List ChatMessage :=
            [⟨"user", get_tool_response_prompt tool.tool_name tool_response query⟩]
          let evs := [Ev.modelCall .routing messages,
            Ev.toolExec tool.tool_name tool_parameters, Ev.modelCall .format fmtMsgs]
          match w.second.err with
          | none =>
            { output := indicator :: w.second.chunks,
              memory := add_assistant_message mem2 (String.join w.second.chunks),
              events := evs }
          | some e =>
            { output := indicator :: w.second.chunks ++ ["I encountered an error: " ++ e],
              memory := mem2, events := evs }
        | none =>
          let notice := unavailableNotice tool_name
          let fb := answer_with_llm mem1 query w.second
          { output := notice :: fb.output, memory := fb.memory,
            events := Ev.modelCall .routing messages :: fb.events }
      else
        { output := [full_response], memory := add_assistant_message mem1 full_response,
          events := [Ev.modelCall .routing messages] }
    | none =>
      { output := [full_response], memory := add_assistant_message mem1 full_response,
        events := [Ev.modelCall .routing messages] }

/-- The kinds of the model calls in a trace, in order. -/
def modelCallKinds : List Ev → List CallKind
  | [] => []
  | Ev.modelCall k _ :: rest => k :: modelCallKinds rest
  | Ev.toolExec _ _ :: rest => modelCallKinds rest

/-- Whether a trace contains a tool execution. -/
def hasToolExec : List Ev → Bool
  | [] => false
  | Ev.toolExec _ _ :: _ => true
  | Ev.modelCall _ _ :: rest => hasToolExec rest

/- ### The concrete capabilities (`tools/weather.py`, `tools/stock.py`) -/

/-- `WeatherTool` descriptor (its `tool_name` / `description` /
`parameters` properties). -/
def weatherToolDesc : ToolDesc :=
  { tool_name := "get_weather",
    description := "Get current weather information for a specified location",
    parameters := Json.obj [
      ("location", Json.obj [("type", Json.str "string"),
        ("description", Json.str
          "The city name or location to get weather for (e.g., \x27New York\x27, \x27London, UK\x27)"),
        ("required", Json.bool true)]),
      ("units", Json.obj [("type", Json.str "string"),
        ("description", Json.str
          "Units of measurement. Options: \x27metric\x27 (Celsius), \x27imperial\x27 (Fahrenheit), \x27standard\x27 (Kelvin)"),
        ("required", Json.bool false)])] }

/-- `StockTool` descriptor. -/
def stockToolDesc : ToolDesc :=
  { tool_name := "get_stock_price",
    description := "Get current stock price information for a specified ticker symbol",
    parameters := Json.obj [
      ("symbol", Json.obj [("type", Json.str "string"),
        ("description", Json.str
          "The stock ticker symbol (e.g., \x27AAPL\x27 for Apple, \x27MSFT\x27 for Microsoft)"),
        ("required", Json.bool true)])] }

/-- The outcome of the one upstream HTTP request a tool makes:
a transport error (`aiohttp.ClientError`) or a response with a status
code and a body. -/
inductive HttpOutcome where
  | clientError (msg : String)
  | response (status : Nat) (body : String)

/-- The observable outcome of `execute`: a raised exception escaping the
tool's boundary, or a returned payload. -/
inductive ExecResult where
  | raised (msg : String)
  | ok (payload : Json)

/-- Python exceptions distinguished by the tools' handlers. -/
inductive PyErr where
  | keyError (k : String)
  | other (msg : String)

/-- Python `x[k]` on a JSON value: `KeyError` on a missing dict key,
`TypeError` otherwise. -/
def pyItem (j : Json) (k : String) : Except PyErr Json :=
  match j with
  | .obj entries =>
    match dictGet entries k with
    | some v => Except.ok v
    | none => Except.error (PyErr.keyError k)
  | _ => Except.error (PyErr.other "value is not subscriptable")

/-- `if not self.api_key` (`None` and the empty string are falsy). -/
def keyTruthy : Option String → Bool
  | none => false
  | some s => !s.isEmpty

/-- A `{error, details}` failure payload. -/
def errObj (e d : String) : Json :=
  Json.obj [("error", Json.str e), ("details", Json.str d)]

/-- The `formatted_response` dict of `WeatherTool.execute` (lines
127-140), evaluated left to right so the first failing access raises:
`KeyError` for a missing key, another exception for a non-dict/short
list, both caught by the tool's handlers. -/
def weatherFormat (data : Json) (units : String) : Except PyErr Json := do
  let temp_unit := if units = "metric" then "°C" else if units = "imperial" then "°F" else "K"
  let wind_unit := if units = "metric" then "m/s" else if units = "imperial" then "mph" else "m/s"
  let name ← pyItem data "name"
  let sys := (jsonGet data "sys").getD (Json.obj [])
  let country ←
    match sys with
    | .obj es => Except.ok ((dictGet es "country").getD (Json.str ""))
    | _ => Except.error (PyErr.other "AttributeError: get")
  let main ← pyItem data "main"
  let temp ← pyItem main "temp"
  let feels ← pyItem main "feels_like"
  let weather ← pyItem data "weather"
  let w0 ←
    match weather with
    | .arr (x :: _) => Except.ok x
    | .arr [] => Except.error (PyErr.other "list index out of range")
    | _ => Except.error (PyErr.other "value is not subscriptable")
  let cond ← pyItem w0 "main"
  let desc ← pyItem w0 "description"
  let humidity ← pyItem main "humidity"
  let wind ← pyItem data "wind"
  let speed ← pyItem wind "speed"
  let pressure ← pyItem main "pressure"
  let dt ← pyItem data "dt"
  Except.ok (Json.obj [
    ("location", Json.str (pyStr name ++ ", " ++ pyStr country)),
    ("temperature", Json.str (pyStr temp ++ temp_unit)),
    ("feels_like", Json.str (pyStr feels ++ temp_unit)),
    ("condition", cond),
    ("description", desc),
    ("humidity", Json.str (pyStr humidity ++ "%")),
    ("wind_speed", Json.str (pyStr speed ++ " " ++ wind_unit)),
    ("pressure", Json.str (pyStr pressure ++ " hPa")),
    ("timestamp", dt)])

/-- Model of `WeatherTool.execute(**kwargs)` (weather.py lines 64-165).
A falsy `location` raises `ValueError` past the boundary (line 83); all
other modelled failures are returned as `{error, details}` payloads.
Exception texts that Python derives from `str(e)` are abbreviated. -/
def weather_execute (kwargs : List (String × Json)) (api_key : Option String)
    (net : HttpOutcome) : ExecResult :=
  let location := dictGet kwargs "location"
  if !truthyOpt location then ExecResult.raised "Location is required"
  else if !keyTruthy api_key then
    ExecResult.ok (Json.obj [("error", Json.str "Weather API key is missing"),
      ("details",
        Json.str "Please provide a valid OpenWeatherMap API key in the configuration")])
  else
    let units :=
      match (dictGet kwargs "units").getD (Json.str "metric") with
      | .str s => if s = "metric" || s = "imperial" || s = "standard" then s else "metric"
      | _ => "metric"
    match net with
    | .clientError msg =>
      ExecResult.ok (errObj ("Network error connecting to weather API: " ++ msg)
        (format_exc msg))
    | .response status body =>
      if status ≠ 200 then
        ExecResult.ok (errObj ("Weather API error: " ++ toString status) body)
      else
        match json_loads body with
        | none =>
          ExecResult.ok (errObj "Error fetching weather data: response body is not valid JSON"
            (format_exc body))
        | some data =>
          match weatherFormat data units with
          | .ok payload => ExecResult.ok payload
          | .error (.keyError k) =>
            ExecResult.ok (errObj
              ("Unexpected data format from weather API (missing key: \x27" ++ k ++ "\x27)")
              (format_exc k))
          | .error (.other msg) =>
            ExecResult.ok (errObj ("Error fetching weather data: " ++ msg) (format_exc msg))

/-- Python `float(x)` on a JSON value: the value as `(mantissa, exponent)`
with the exponent a power of ten, or `none` for a raised
`ValueError`/`TypeError`.  Strings accept the float-literal syntax. -/
def pyFloat : Json → Option (Int × Int)
  | .num m e _ => some (m, e)
  | .bool true => some (1, 0)
  | .bool false => some (0, 0)
  | .str s =>
    match parseNumber (s.data.dropWhile isJsonWs) with
    | some (.num m e _, rest) => if (rest.dropWhile isJsonWs).isEmpty then some (m, e) else none
    | _ => none
  | _ => none

/-- Python `int(x)` on a JSON value: floats truncate toward zero, strings
must be integer literals. -/
def pyInt : Json → Option Int
  | .num m e f =>
    if !f then some m
    else if 0 ≤ e then some (m * (10 : Int) ^ e.toNat)
    else some (Int.tdiv m ((10 : Int) ^ (-e).toNat))
  | .bool true => some 1
  | .bool false => some 0
  | .str s =>
    let cs := s.data.dropWhile isJsonWs
    let (neg, cs1) := match cs with
      | '-' :: r => (true, r)
      | '+' :: r => (false, r)
      | _ => (false, cs)
    let digits := cs1.takeWhile Char.isDigit
    let rest := (cs1.dropWhile Char.isDigit).dropWhile isJsonWs
    if digits.isEmpty || !rest.isEmpty then none
    else some (if neg then -(digitsToNat 0 digits : Int) else (digitsToNat 0 digits : Int))
  | _ => none

/-- The `formatted_response` block of `StockTool.execute` (lines 130-145):
the float/int conversions are attempted in order; a conversion failure is
caught and returned as an `Error parsing stock data` payload with the raw
quote attached. -/
def stockFormatQuote (qentries : List (String × Json)) (symbol : String) (now : String) :
    Json :=
  let priceV := (dictGet qentries "05. price").getD (Json.num 0 0 false)
  let changeV := (dictGet qentries "09. change").getD (Json.num 0 0 false)
  let volumeV := (dictGet qentries "06. volume").getD (Json.num 0 0 false)
  let prevV := (dictGet qentries "08. previous close").getD (Json.num 0 0 false)
  match pyFloat priceV, pyFloat changeV, pyInt volumeV, pyFloat prevV with
  | some (pm, pe), some (cm, ce), some vol, some (qm, qe) =>
    Json.obj [
      ("symbol", (dictGet qentries "01. symbol").getD (Json.str symbol)),
      ("price", Json.num pm pe true),
      ("change", Json.num cm ce true),
      ("change_percent", (dictGet qentries "10. change percent").getD (Json.str "0%")),
      ("volume", Json.num vol 0 false),
      ("latest_trading_day", (dictGet qentries "07. latest trading day").getD (Json.str "N/A")),
      ("previous_close", Json.num qm qe true),
      ("fetched_at", Json.str now)]
  | _, _, _, _ =>
    errObj "Error parsing stock data: could not convert value"
      ("Raw data: " ++ json_dumps (Json.obj qentries))

/-- Model of `StockTool.execute(**kwargs)` (stock.py lines 60-166).
A falsy `symbol` raises `ValueError` (line 76); a truthy non-string
`symbol` raises `AttributeError` at `symbol.strip()` (line 87, outside
the `try`); other modelled failures return `{error, details}` payloads.
`now` stands for `datetime.now().isoformat()`. -/
def stock_execute (kwargs : List (String × Json)) (api_key : Option String)
    (net : HttpOutcome) (now : String) : ExecResult :=
  let symbol0 := dictGet kwargs "symbol"
  if !truthyOpt symbol0 then ExecResult.raised "Stock symbol is required"
  else if !keyTruthy api_key then
    ExecResult.ok (Json.obj [("error", Json.str "Alpha Vantage API key is missing"),
      ("details",
        Json.str "Please provide a valid Alpha Vantage API key in the configuration")])
  else
    match symbol0 with
    | some (Json.str s) =>
      let symbol := s.trim.toUpper
      match net with
      | .clientError msg =>
        ExecResult.ok (errObj ("Network error connecting to stock API: " ++ msg)
          (format_exc msg))
      | .response status body =>
        if status ≠ 200 then
          ExecResult.ok (errObj ("Stock API error: " ++ toString status) body)
        else
          match json_loads body with
          | none =>
            ExecResult.ok (errObj "Error fetching stock data: response body is not valid JSON"
              (format_exc body))
          | some data =>
            match data with
            | .obj entries =>
              match dictGet entries "Global Quote" with
              | none =>
                ExecResult.ok (errObj ("No data found for symbol: " ++ symbol)
                  "The requested stock symbol may be invalid or not available")
              | some gq =>
                if !truthy gq then
                  ExecResult.ok (errObj ("No data found for symbol: " ++ symbol)
                    "The requested stock symbol may be invalid or not available")
                else
                  match gq with
                  | .obj qentries => ExecResult.ok (stockFormatQuote qentries symbol now)
                  | _ =>
                    ExecResult.ok (errObj
                      "Error fetching stock data: quote value is not a dict"
                      (format_exc "AttributeError"))
            | _ =>
              ExecResult.ok (errObj
                "Error fetching stock data: response structure is not a dict"
                (format_exc "TypeError"))
    | _ => ExecResult.raised "AttributeError: value has no attribute strip"

/- ### The snapshot-aliasing model (`get_messages` with Python reference
semantics) -/

/-- The mutable turn record a ledger entry points at. -/
structure PyTurn where
  role : String
  content : String
  tool_name : Option String := none
deriving DecidableEq, Repr

/-- The heap of allocated turn records; an address is an index. -/
abbrev Heap := List PyTurn

/-- The memory object under reference semantics: `messages` is a list of
addresses of turn records. -/
structure MemRef where
  max_turns : Nat
  msgs : List Nat
deriving DecidableEq, Repr

/-- Dereference one address. -/
def heapGet (h : Heap) (a : Nat) : PyTurn :=
  h.getD a { role := "", content := "" }

/-- In-place mutation of the record at an address (e.g. Python's
`turn["content"] = ...` through any alias). -/
def heapSet (h : Heap) (a : Nat) (t : PyTurn) : Heap :=
  h.set a t

/-- `_truncate_history` under reference semantics: the address list is
trimmed exactly as the value-semantics model trims messages. -/
def truncate_history_ref (h : Heap) (m : MemRef) : MemRef :=
  if m.msgs.length ≤ m.max_turns * 2 then m
  else
    let has_system : Bool :=
      match m.msgs with
      | a :: _ => (heapGet h a).role == "system"
      | [] => false
    let start_idx := if has_system then 1 else 0
    let num_to_remove := m.msgs.length - m.max_turns * 2 - (if has_system then 1 else 0)
    { m with msgs := m.msgs.take start_idx ++ m.msgs.drop (start_idx + num_to_remove) }

/-- `add_user_message` under reference semantics: allocate the new turn
record, append its address, truncate. -/
def add_user_message_ref (h : Heap) (m : MemRef) (content : String) : Heap × MemRef :=
  let h2 := h ++ [{ role := "user", content := content }]
  let m2 := { m with msgs := m.msgs ++ [h.length] }
  (h2, truncate_history_ref h2 m2)

/-- `get_messages` under reference semantics: `self.messages.copy()` is a
new list cell holding the same element references, so as a value it is
the address list itself. -/
def get_messages_ref (m : MemRef) : List Nat :=
  m.msgs

/-- The ledger state an observer sees: each stored turn, dereferenced. -/
def observeMem (h : Heap) (m : MemRef) : List PyTurn :=
  m.msgs.map (heapGet h)

/- ### Retention of the bounded ledger (spec section 8, property 1) -/

/-- The three append operations of the ledger. -/
inductive LedgerOp where
  | user (content : String)
  | assistant (content : String)
  | tool (name : String) (payload : Json)

/-- Apply one append operation. -/
def applyOp (m : ConversationMemory) : LedgerOp → ConversationMemory
  | .user c => add_user_message m c
  | .assistant c => add_assistant_message m c
  | .tool n p => add_tool_message m n p

/-- The message an append operation stores. -/
def opMsg : LedgerOp → Msg
  | .user c => { role := "user", content := c }
  | .assistant c => { role := "assistant", content := c }
  | .tool n p => { role := "tool", content := json_dumps p, tool_name := some n }

/-- Run a sequence of appends. -/
def runOps (m : ConversationMemory) (ops : List LedgerOp) : ConversationMemory :=
  ops.foldl applyOp m

/-- An optional pinned leading system turn. -/
def sysMsgs : Option String → List Msg
  | none => []
  | some c => [{ role := "system", content := c }]

/-- A ledger that starts empty, or with a pinned system turn. -/
def initWithSystem (max_turns : Nat) (sys : Option String) : ConversationMemory :=
  { max_turns := max_turns, messages := sysMsgs sys }

/-- The most recent `cap` entries of a list. -/
def keepLast (cap : Nat) (xs : List Msg) : List Msg :=
  xs.drop (xs.length - cap)

theorem keepLast_length (cap : Nat) (xs : List Msg) :
    (keepLast cap xs).length = min xs.length cap := by
  simp only [keepLast, List.length_drop]
  omega

theorem runOps_snoc (m : ConversationMemory) (ops : List LedgerOp) (op : LedgerOp) :
    runOps m (ops ++ [op]) = applyOp (runOps m ops) op := by
  simp [runOps, List.foldl_append]

theorem applyOp_eq (m : ConversationMemory) (op : LedgerOp) :
    applyOp m op = truncate_history ⟨m.max_turns, m.messages ++ [opMsg op]⟩ := by
  cases op <;> rfl

theorem opMsg_role_ne_system (op : LedgerOp) : (opMsg op).role ≠ "system" := by
  cases op <;> simp [opMsg]

/-- With no leading system turn, truncation is exactly a drop of the
excess from the front. -/
theorem truncate_no_system (mt : Nat) (L : List Msg)
    (hL : ∀ x ∈ L, x.role ≠ "system") :
    (truncate_history ⟨mt, L⟩).messages = L.drop (L.length - mt * 2) := by
  unfold truncate_history
  split
  · next h =>
    simp only at h ⊢
    rw [Nat.sub_eq_zero_of_le h, List.drop_zero]
  · next h =>
    cases L with
    | nil => simp at h
    | cons x xs =>
      have hx : x.role ≠ "system" := hL x (by simp)
      have hb : (x.role == "system") = false := by
        simpa [beq_eq_false_iff_ne] using hx
      simp [hb]

/-- With a leading system turn, truncation keeps it and drops the excess
from the front of the rest. -/
theorem truncate_with_system (mt : Nat) (s : Msg) (L : List Msg)
    (hs : s.role = "system") :
    (truncate_history ⟨mt, s :: L⟩).messages = s :: L.drop (L.length - mt * 2) := by
  unfold truncate_history
  split
  · next h =>
    simp only [List.length_cons] at h ⊢
    rw [Nat.sub_eq_zero_of_le (by omega), List.drop_zero]
  · next h =>
    have hb : (s.role == "system") = true := by simp [hs]
    simp only [List.length_cons] at h
    simp only [hb, if_true, List.length_cons, List.take_succ_cons, List.take_zero]
    have h2 : 1 + (L.length + 1 - mt * 2 - 1) = (L.length - mt * 2) + 1 := by omega
    rw [h2, List.drop_succ_cons]
    simp

/-- Appending one entry and re-cropping keeps exactly the most recent
`cap` entries. -/
theorem keepLast_snoc (cap : Nat) (A : List Msg) (x : Msg) :
    (keepLast cap A ++ [x]).drop ((keepLast cap A ++ [x]).length - cap)
      = keepLast cap (A ++ [x]) := by
  by_cases hn : A.length < cap
  · have h0 : A.length - cap = 0 := by omega
    simp only [keepLast, h0, List.drop_zero, List.length_append, List.length_cons]
  · have hKl : (keepLast cap A).length = cap := by rw [keepLast_length]; omega
    by_cases hc : cap = 0
    · subst hc
      simp only [keepLast, Nat.sub_zero, List.drop_length, List.nil_append,
        List.length_append]
      have : A.length + [x].length = (A ++ [x]).length := by simp
      simp [List.drop_length]
    · have h1 : (keepLast cap A ++ [x]).length - cap = 1 := by
        simp [List.length_append, hKl]
      rw [h1, List.drop_append_of_le_length (by omega)]
      unfold keepLast
      rw [List.drop_drop]
      rw [List.drop_append_of_le_length (by simp; omega)]
      congr 2
      simp only [List.length_append, List.length_cons, List.length_nil]
      omega

theorem truncate_max_turns (m : ConversationMemory) :
    (truncate_history m).max_turns = m.max_turns := by
  unfold truncate_history
  split <;> rfl

/-- Claim C6 core induction: after any sequence of appends starting from
an empty ledger (or one holding only a pinned system turn), the stored
messages are the pinned prefix followed by exactly the most recent
`2 * max_turns` appended entries, and `max_turns` is unchanged. -/
theorem runOps_messages (mt : Nat) (sys : Option String) (ops : List LedgerOp) :
    (runOps (initWithSystem mt sys) ops).messages
        = sysMsgs sys ++ keepLast (mt * 2) (ops.map opMsg)
      ∧ (runOps (initWithSystem mt sys) ops).max_turns = mt := by
  induction ops using List.reverseRecOn with
  | nil =>
    constructor
    · simp [runOps, initWithSystem, keepLast]
    · rfl
  | append_singleton l a ih =>
    obtain ⟨hmsg, hmt⟩ := ih
    rw [runOps_snoc, applyOp_eq, hmt, hmsg]
    have hsub : ∀ x ∈ keepLast (mt * 2) (l.map opMsg), x.role ≠ "system" := by
      intro x hx
      have hx2 : x ∈ l.map opMsg := List.drop_subset _ _ hx
      obtain ⟨op, _, rfl⟩ := List.mem_map.mp hx2
      exact opMsg_role_ne_system op
    constructor
    · cases sys with
      | none =>
        simp only [sysMsgs, List.nil_append, List.map_append, List.map_cons,
          List.map_nil]
        have hall : ∀ x ∈ keepLast (mt * 2) (l.map opMsg) ++ [opMsg a],
            x.role ≠ "system" := by
          intro x hx
          rcases List.mem_append.mp hx with h | h
          · exact hsub x h
          · simp at h; subst h; exact opMsg_role_ne_system a
        rw [truncate_no_system mt _ hall]
        exact keepLast_snoc (mt * 2) (l.map opMsg) (opMsg a)
      | some c =>
        simp only [sysMsgs, List.map_append, List.map_cons, List.map_nil,
          List.singleton_append, List.cons_append, List.nil_append]
        rw [truncate_with_system mt _ _ (by rfl)]
        rw [keepLast_snoc (mt * 2) (l.map opMsg) (opMsg a)]
    · exact truncate_max_turns _

/- ### Characterizing the candidate loop of `_extract_tool_call` -/

/-- What succeeding on one candidate means: the candidate parses as a
JSON object containing a `use_tool` key; the result is the parsed dict. -/
def parseToolCandidate (c : String) : Option Json :=
  match json_loads c with
  | some (Json.obj entries) =>
    if hasKey entries "use_tool" then some (Json.obj entries) else none
  | _ => none

theorem firstToolCall_cons (c : String) (rest : List String) :
    firstToolCall (c :: rest) =
      match parseToolCandidate c with
      | some j => some j
      | none => firstToolCall rest := by
  cases h : json_loads c with
  | none => simp [firstToolCall, parseToolCandidate, h]
  | some j =>
    cases j with
    | obj entries =>
      by_cases hk : hasKey entries "use_tool" = true
      · simp [firstToolCall, parseToolCandidate, h, hk]
      · simp [firstToolCall, parseToolCandidate, h, hk]
    | null => simp [firstToolCall, parseToolCandidate, h]
    | bool b => simp [firstToolCall, parseToolCandidate, h]
    | num m e f => simp [firstToolCall, parseToolCandidate, h]
    | str s => simp [firstToolCall, parseToolCandidate, h]
    | arr items => simp [firstToolCall, parseToolCandidate, h]
    | special s => simp [firstToolCall, parseToolCandidate, h]

theorem firstToolCall_eq_none_iff (cs : List String) :
    firstToolCall cs = none ↔ ∀ c ∈ cs, parseToolCandidate c = none := by
  induction cs with
  | nil => simp [firstToolCall]
  | cons c rest ih =>
    rw [firstToolCall_cons]
    cases h : parseToolCandidate c with
    | some j => simp [h]
    | none => simp [h, ih]

theorem firstToolCall_eq_some_iff (cs : List String) (j : Json) :
    firstToolCall cs = some j ↔
      ∃ pre c post, cs = pre ++ c :: post ∧ parseToolCandidate c = some j ∧
        ∀ d ∈ pre, parseToolCandidate d = none := by
  induction cs with
  | nil =>
    constructor
    · intro h; simp [firstToolCall] at h
    · rintro ⟨pre, c, post, h, -, -⟩
      exact absurd h (by simp)
  | cons a rest ih =>
    rw [firstToolCall_cons]
    cases h : parseToolCandidate a with
    | some j' =>
      constructor
      · intro he
        refine ⟨[], a, rest, rfl, ?_, by simp⟩
        rw [h]
        exact he
      · rintro ⟨pre, c, post, heq, hc, hpre⟩
        cases pre with
        | nil =>
          simp only [List.nil_append, List.cons.injEq] at heq
          obtain ⟨rfl, rfl⟩ := heq
          rw [h] at hc
          exact hc
        | cons p ps =>
          simp only [List.cons_append, List.cons.injEq] at heq
          obtain ⟨rfl, -⟩ := heq
          exact absurd h (by rw [hpre a (by simp)]; simp)
    | none =>
      rw [ih]
      constructor
      · rintro ⟨pre, c, post, heq, hc, hpre⟩
        refine ⟨a :: pre, c, post, by rw [heq]; rfl, hc, ?_⟩
        intro d hd
        rcases List.mem_cons.mp hd with rfl | hd2
        · exact h
        · exact hpre d hd2
      · rintro ⟨pre, c, post, heq, hc, hpre⟩
        cases pre with
        | nil =>
          simp only [List.nil_append, List.cons.injEq] at heq
          obtain ⟨rfl, rfl⟩ := heq
          rw [h] at hc
          exact absurd hc (by simp)
        | cons p ps =>
          simp only [List.cons_append, List.cons.injEq] at heq
          obtain ⟨rfl, rfl⟩ := heq
          exact ⟨ps, c, post, rfl, hc, fun d hd => hpre d (by simp [hd])⟩

/-- A routing reply with two fenced JSON blocks; only the second is a
tool call (spec section 8, property 3). -/
def twoBlockText : String :=
  "I will call a tool.\n```json\n\x7b\"answer\": 42\x7d\n```\n```json\n\x7b\"use_tool\": true, \"tool_name\": \"get_weather\", \"tool_parameters\": \x7b\"location\": \"Paris\"\x7d\x7d\n```"

/-- The intent parsed from the second block of `twoBlockText`. -/
def twoBlockIntent : Json :=
  Json.obj [("use_tool", Json.bool true), ("tool_name", Json.str "get_weather"),
    ("tool_parameters", Json.obj [("location", Json.str "Paris")])]

set_option maxRecDepth 8192 in
/-- Claim C1: tool-call extraction tries the JSON candidates in the order
found in the text; it returns the first candidate that parses as a JSON
object containing a `use_tool` key (so with two blocks where only the
second qualifies, the second is returned); candidates that fail to parse
are skipped without error (the loop is total and simply moves on); when
no candidate parses as an object with that key the extraction returns
`none` (the "no tool call" path). -/
theorem c1_extraction_order :
    (∀ text, extract_tool_call text = none ↔
        ∀ c ∈ candidates text, parseToolCandidate c = none)
    ∧ (∀ text j, extract_tool_call text = some j ↔
        ∃ pre c post, candidates text = pre ++ c :: post ∧
          parseToolCandidate c = some j ∧ ∀ d ∈ pre, parseToolCandidate d = none)
    ∧ extract_tool_call twoBlockText = some twoBlockIntent :=
  ⟨fun text => firstToolCall_eq_none_iff (candidates text),
   fun text j => firstToolCall_eq_some_iff (candidates text) j,
   by rfl⟩

/-- Witness for C1: at `twoBlockText` the characterization produces the
explicit decomposition - one earlier candidate, which does not qualify,
preceding the returned one. -/
theorem c1_extraction_order_witness :
    ∃ pre c post, candidates twoBlockText = pre ++ c :: post ∧
      parseToolCandidate c = some twoBlockIntent ∧
      ∀ d ∈ pre, parseToolCandidate d = none :=
  (c1_extraction_order.2.1 twoBlockText twoBlockIntent).mp c1_extraction_order.2.2

/-- Plain prose with a bare tool-call JSON object embedded mid-sentence:
no fenced block, and the whole text is not valid JSON. -/
def proseEmbeddedText : String :=
  "Sure, here it is: \x7b\"use_tool\": true, \"tool_name\": \"get_weather\"\x7d hope that helps"

/-- A fenced non-tool block plus a bare tool-call object outside any
fence. -/
def fencedPlusBareText : String :=
  "```json\n[1, 2]\n```\nAlso \x7b\"use_tool\": true\x7d outside the fence"

/-- Claim C9: when at least one fenced block matches, only the fenced
blocks are candidates (bare JSON outside fences is never considered);
with no fenced block the single candidate is the whole text, so a bare
tool-call object embedded in surrounding prose - which makes the whole
text unparsable - is never recognized as an intent. -/
theorem c9_candidate_scoping :
    (∀ text, findCodeBlocks text ≠ [] → candidates text = findCodeBlocks text)
    ∧ (∀ text, findCodeBlocks text = [] → candidates text = [text])
    ∧ (∀ text, findCodeBlocks text = [] → json_loads text = none →
        extract_tool_call text = none)
    ∧ extract_tool_call proseEmbeddedText = none
    ∧ extract_tool_call fencedPlusBareText = none := by
  refine ⟨?_, ?_, ?_, by rfl, by rfl⟩
  · intro text h
    simp [candidates, List.isEmpty_iff, h]
  · intro text h
    simp [candidates, h]
  · intro text h hj
    have hc : candidates text = [text] := by simp [candidates, h]
    unfold extract_tool_call
    rw [hc]
    simp [firstToolCall, hj]

/-- Witness for C9: the prose-embedded text has no fenced block, its
whole-text candidate fails to parse, and extraction yields no intent. -/
theorem c9_candidate_scoping_witness :
    candidates proseEmbeddedText = [proseEmbeddedText]
      ∧ extract_tool_call proseEmbeddedText = none :=
  ⟨c9_candidate_scoping.2.1 proseEmbeddedText (by rfl),
   c9_candidate_scoping.2.2.1 proseEmbeddedText (by rfl) (by rfl)⟩

/-- Claim C6: for every sequence of appends to a ledger with cap
`2 * maxTurns` (optionally holding a pinned leading system turn, which is
never evicted), the stored entries are the pinned prefix followed by
exactly the most recent `2 * maxTurns` appended entries in their original
relative order - eviction strictly from the oldest end - and the size
ignoring the pinned turn is `min (total appends) (2 * maxTurns)`.
Instantiating `ops` at each prefix of an append sequence gives the
"after each append" form of the claim. -/
theorem c6_ledger_retention (mt : Nat) (sys : Option String) (ops : List LedgerOp) :
    (runOps (initWithSystem mt sys) ops).messages
        = sysMsgs sys ++ (ops.map opMsg).drop (ops.length - 2 * mt)
      ∧ (runOps (initWithSystem mt sys) ops).messages.length
        = (sysMsgs sys).length + min ops.length (2 * mt) := by
  have h := (runOps_messages mt sys ops).1
  constructor
  · rw [h]
    unfold keepLast
    have he : (List.map opMsg ops).length - mt * 2 = ops.length - 2 * mt := by
      simp only [List.length_map]
      omega
    rw [he]
  · rw [h]
    simp only [List.length_append, keepLast_length, List.length_map]
    omega

/-- Claim C7 (refuted - code bug): `get_messages` returns
`self.messages.copy()`, a shallow copy.  The returned list cell is fresh,
but the turn records inside it are shared with the ledger's internal
storage; mutating a record reached through the snapshot therefore changes
the ledger state observed afterwards.  Below, after one appended user
turn, writing `"tampered"` into the snapshot's first record changes what
the ledger subsequently reports. -/
theorem c7_snapshot_aliasing :
    (observeMem (add_user_message_ref [] { max_turns := 10, msgs := [] } "hello").1
        (add_user_message_ref [] { max_turns := 10, msgs := [] } "hello").2
      = [{ role := "user", content := "hello", tool_name := none }])
    ∧ (observeMem
        (heapSet (add_user_message_ref [] { max_turns := 10, msgs := [] } "hello").1
          ((get_messages_ref (add_user_message_ref [] { max_turns := 10, msgs := [] } "hello").2).getD 0 0)
          { heapGet (add_user_message_ref [] { max_turns := 10, msgs := [] } "hello").1
              ((get_messages_ref (add_user_message_ref [] { max_turns := 10, msgs := [] } "hello").2).getD 0 0)
            with content := "tampered" })
        (add_user_message_ref [] { max_turns := 10, msgs := [] } "hello").2
      = [{ role := "user", content := "tampered", tool_name := none }]) := by
  exact ⟨by decide, by decide⟩

/-- `{error, details}`-shaped payload. -/
def isErrorPayload : Json → Bool
  | .obj entries => hasKey entries "error" && hasKey entries "details"
  | _ => false

/-- The expected failure environments of the weather tool named by the
claim: missing credentials, transport failure, non-200 status, or a body
that is not valid JSON. -/
def weatherFailEnv (key : Option String) (net : HttpOutcome) : Bool :=
  !keyTruthy key ||
    (match net with
     | .clientError _ => true
     | .response status body => status != 200 || (json_loads body).isNone)

/-- The same expected failure environments for the stock tool. -/
def stockFailEnv (key : Option String) (net : HttpOutcome) : Bool :=
  weatherFailEnv key net

/-- Counterexample to claim C3 as stated: with the required parameter
missing, both capabilities raise `ValueError` past the `execute` boundary
instead of returning an `{error, details}` payload. -/
theorem c3_missing_param_raises :
    weather_execute [] (some "k") (HttpOutcome.response 200 "\x7b\x7d")
        = ExecResult.raised "Location is required"
      ∧ stock_execute [] (some "k") (HttpOutcome.response 200 "\x7b\x7d") "t"
        = ExecResult.raised "Stock symbol is required"
      ∧ (∀ p, weather_execute [] (some "k") (HttpOutcome.response 200 "\x7b\x7d")
          ≠ ExecResult.ok p) := by
  refine ⟨rfl, rfl, fun p h => ?_⟩
  simp [weather_execute, dictGet, truthyOpt] at h

/-- Claim C3 as amended: for both registered capabilities, the expected
failure modes of missing credentials, network failure, and malformed
upstream response are contained and returned as structured
`{error, details}` payloads, and a truthy string parameter never lets an
exception escape; but a missing (or falsy) required parameter raises
`ValueError` past the `execute` boundary, and the stock tool also raises
`AttributeError` for a truthy non-string symbol once an API key is
present - containment of those raises is left to the router's call-site
handler. -/
theorem c3_execute_containment :
    (∀ kwargs key net,
        (truthyOpt (dictGet kwargs "location") = false →
          weather_execute kwargs key net = ExecResult.raised "Location is required")
        ∧ (truthyOpt (dictGet kwargs "location") = true →
            ∃ p, weather_execute kwargs key net = ExecResult.ok p
              ∧ (weatherFailEnv key net = true → isErrorPayload p = true)))
    ∧ (∀ kwargs key net now,
        (truthyOpt (dictGet kwargs "symbol") = false →
          stock_execute kwargs key net now = ExecResult.raised "Stock symbol is required")
        ∧ (∀ s, dictGet kwargs "symbol" = some (Json.str s) →
            truthy (Json.str s) = true →
            ∃ p, stock_execute kwargs key net now = ExecResult.ok p
              ∧ (stockFailEnv key net = true → isErrorPayload p = true))
        ∧ (∀ j, dictGet kwargs "symbol" = some j → truthy j = true →
            (∀ s, j ≠ Json.str s) → keyTruthy key = true →
            stock_execute kwargs key net now
              = ExecResult.raised "AttributeError: value has no attribute strip")) := by
  constructor
  · intro kwargs key net
    constructor
    · intro h
      simp [weather_execute, h]
    · intro h
      simp only [weather_execute, h, Bool.not_true, Bool.false_eq_true, if_false]
      by_cases hk : keyTruthy key = true
      · simp only [hk, Bool.not_true, Bool.false_eq_true, if_false]
        cases net with
        | clientError msg => exact ⟨_, rfl, fun _ => rfl⟩
        | response status body =>
          dsimp only
          by_cases hst : status = 200
          · subst hst
            rw [if_neg (by simp)]
            cases hjs : json_loads body with
            | none => exact ⟨_, rfl, fun _ => rfl⟩
            | some data =>
              have hfe : weatherFailEnv key (HttpOutcome.response 200 body) = false := by
                simp [weatherFailEnv, hk, hjs]
              repeat
                first
                | exact ⟨_, rfl, fun hcon => by rw [hfe] at hcon; cases hcon⟩
                | split
          · rw [if_pos hst]
            exact ⟨_, rfl, fun _ => rfl⟩
      · simp only [Bool.not_eq_true] at hk
        simp only [hk, Bool.not_false, if_true]
        exact ⟨_, rfl, fun _ => rfl⟩
  · intro kwargs key net now
    refine ⟨?_, ?_, ?_⟩
    · intro h
      simp [stock_execute, h]
    · intro s hsym htr
      simp only [stock_execute, hsym, truthyOpt, htr, Bool.not_true, Bool.false_eq_true,
        if_false]
      by_cases hk : keyTruthy key = true
      · simp only [hk, Bool.not_true, Bool.false_eq_true, if_false]
        cases net with
        | clientError msg => exact ⟨_, rfl, fun _ => rfl⟩
        | response status body =>
          dsimp only
          by_cases hst : status = 200
          · subst hst
            rw [if_neg (by simp)]
            cases hjs : json_loads body with
            | none => exact ⟨_, rfl, fun _ => rfl⟩
            | some data =>
              have hfe : stockFailEnv key (HttpOutcome.response 200 body) = false := by
                simp [stockFailEnv, weatherFailEnv, hk, hjs]
              repeat
                first
                | exact ⟨_, rfl, fun hcon => by rw [hfe] at hcon; cases hcon⟩
                | split
          · rw [if_pos hst]
            exact ⟨_, rfl, fun _ => rfl⟩
      · simp only [Bool.not_eq_true] at hk
        simp only [hk, Bool.not_false, if_true]
        exact ⟨_, rfl, fun _ => rfl⟩
    · intro j hsym htr hnotstr hkey
      cases j with
      | str s => exact absurd rfl (hnotstr s)
      | null => simp [truthy] at htr
      | bool b =>
        cases b with
        | false => simp [truthy] at htr
        | true => simp [stock_execute, hsym, truthyOpt, htr, hkey]
      | num m e f => simp [stock_execute, hsym, truthyOpt, htr, hkey]
      | arr items => simp [stock_execute, hsym, truthyOpt, htr, hkey]
      | obj entries => simp [stock_execute, hsym, truthyOpt, htr, hkey]
      | special s => simp [stock_execute, hsym, truthyOpt, htr, hkey]

/-- Witness for the amended C3: a network failure with a present
`location` yields a contained `{error, details}` payload from the weather
tool, and a truthy numeric `symbol` makes the stock tool raise at
`symbol.strip()`. -/
theorem c3_execute_containment_witness :
    (∃ p, weather_execute [("location", Json.str "Paris")] (some "k")
        (HttpOutcome.clientError "connection refused") = ExecResult.ok p
      ∧ (weatherFailEnv (some "k") (HttpOutcome.clientError "connection refused") = true →
          isErrorPayload p = true))
    ∧ stock_execute [("symbol", Json.num 5 0 false)] (some "k")
        (HttpOutcome.response 200 "\x7b\x7d") "t"
      = ExecResult.raised "AttributeError: value has no attribute strip" :=
  ⟨(c3_execute_containment.1 [("location", Json.str "Paris")] (some "k")
      (HttpOutcome.clientError "connection refused")).2 (by rfl),
   (c3_execute_containment.2 [("symbol", Json.num 5 0 false)] (some "k")
      (HttpOutcome.response 200 "\x7b\x7d") "t").2.2 (Json.num 5 0 false) (by rfl) (by rfl)
      (fun s h => Json.noConfusion h) (by rfl)⟩

/-- Claim C8: within one processed query at most two model calls occur -
the routing call, then at most one of the tool-result-formatting call or
the fallback general-knowledge call - and never both a format call and a
fallback call.  The trace of any run is exactly one of the three shapes
below. -/
theorem c8_at_most_two_model_calls (tools : List ToolDesc) (mem : ConversationMemory)
    (query : String) (w : World) :
    modelCallKinds (processQuery tools mem query w).events = [CallKind.routing]
      ∨ modelCallKinds (processQuery tools mem query w).events
          = [CallKind.routing, CallKind.format]
      ∨ modelCallKinds (processQuery tools mem query w).events
          = [CallKind.routing, CallKind.fallback] := by
  unfold processQuery answer_with_llm
  repeat
    first
    | (left; rfl)
    | (right; left; rfl)
    | (right; right; rfl)
    | split
    | dsimp only

theorem getLast?_cons_concat {α : Type} (a x : α) (l : List α) :
    (a :: (l ++ [x])).getLast? = some x := by
  rw [← List.cons_append, List.getLast?_concat]

/-- A routing reply carrying a well-formed weather tool call. -/
def weatherCallText : String :=
  "```json\n\x7b\"use_tool\": true, \"tool_name\": \"get_weather\", \"tool_parameters\": \x7b\"location\": \"Paris\"\x7d\x7d\n```"

/-- The intent parsed from `weatherCallText`. -/
def weatherCallIntent : Json :=
  Json.obj [("use_tool", Json.bool true), ("tool_name", Json.str "get_weather"),
    ("tool_parameters", Json.obj [("location", Json.str "Paris")])]

/-- A world where routing selects the weather tool, the tool returns a
payload, and the result-formatting call then raises. -/
def c2World : World :=
  { routing := { chunks := [weatherCallText], err := none },
    second := { chunks := [], err := some "connection reset by peer" },
    tool := Except.ok (Json.obj [("temperature", Json.str "20C")]) }

set_option maxRecDepth 8192 in
/-- Counterexample to claim C2 as stated: when the model call that fails
is the tool-result-formatting call, the ledger does NOT hold only the
user turn - the tool turn was appended before that call and remains, so
two entries were recorded for the failed query while the caller received
the apology. -/
theorem c2_formatting_failure_keeps_tool_turn :
    (processQuery [weatherToolDesc] (initMemory 10) "weather in Paris?" c2World).memory.messages.length = 2
      ∧ ((processQuery [weatherToolDesc] (initMemory 10) "weather in Paris?" c2World).memory.messages.map Msg.role)
          = ["user", "tool"]
      ∧ (processQuery [weatherToolDesc] (initMemory 10) "weather in Paris?" c2World).output.getLast?
          = some "I encountered an error: connection reset by peer" :=
  ⟨by rfl, by rfl, by rfl⟩

/-- Claim C2 as amended: any model-call failure is caught and surfaced to
the caller as an apologetic error string, the router and ledger remain
usable, and no assistant turn is recorded for the failed query; but what
the ledger holds depends on which call failed: a routing-call failure
leaves only the user turn, a tool-result-formatting-call failure leaves
the user turn AND the tool turn already appended before that call, and a
fallback-call failure leaves only the user turn. -/
theorem c2_model_failure_handling (tools : List ToolDesc) (mem : ConversationMemory)
    (query : String) (w : World) :
    (∀ e, w.routing.err = some e →
        processQuery tools mem query w =
          { output := ["I encountered an error: " ++ e],
            memory := add_user_message mem query,
            events := [Ev.modelCall CallKind.routing
              (buildRoutingMessages tools (add_user_message mem query) query)] })
    ∧ (∀ e tc td, w.routing.err = none →
        extract_tool_call (String.join w.routing.chunks) = some tc →
        useToolCond tc = true →
        lookupToolName tools (jsonGet tc "tool_name") = some td →
        w.second.err = some e →
        (processQuery tools mem query w).memory =
            add_tool_message (add_user_message mem query) td.tool_name
              (toolResponseOf td.tool_name w.tool)
          ∧ (processQuery tools mem query w).output.getLast? =
              some ("I encountered an error: " ++ e))
    ∧ (∀ e tc, w.routing.err = none →
        extract_tool_call (String.join w.routing.chunks) = some tc →
        useToolCond tc = true →
        lookupToolName tools (jsonGet tc "tool_name") = none →
        w.second.err = some e →
        (processQuery tools mem query w).memory = add_user_message mem query
          ∧ (processQuery tools mem query w).output.getLast? =
              some ("I encountered an error providing a general knowledge answer: " ++ e)) := by
  refine ⟨?_, ?_, ?_⟩
  · intro e he
    simp only [processQuery, he]
  · intro e tc td h1 h2 h3 h4 h5
    simp only [processQuery, h1, h2, h3, if_true, h4, h5]
    exact ⟨trivial, getLast?_cons_concat _ _ _⟩
  · intro e tc h1 h2 h3 h4 h5
    simp only [processQuery, answer_with_llm, h1, h2, h3, if_true, h4, h5]
    exact ⟨trivial, getLast?_cons_concat _ _ _⟩

set_option maxRecDepth 8192 in
/-- Witness for the amended C2, at the formatting-failure world: the
ledger holds the user and tool turns and the caller got the apology. -/
theorem c2_model_failure_handling_witness :
    (processQuery [weatherToolDesc] (initMemory 10) "weather in Paris?" c2World).memory =
        add_tool_message (add_user_message (initMemory 10) "weather in Paris?")
          weatherToolDesc.tool_name
          (toolResponseOf weatherToolDesc.tool_name c2World.tool)
      ∧ (processQuery [weatherToolDesc] (initMemory 10) "weather in Paris?" c2World).output.getLast?
          = some ("I encountered an error: " ++ "connection reset by peer") :=
  (c2_model_failure_handling [weatherToolDesc] (initMemory 10) "weather in Paris?"
      c2World).2.1 "connection reset by peer" weatherCallIntent weatherToolDesc
    (by rfl) (by rfl) (by rfl) (by rfl) (by rfl)

/-- Claim C4: when a registered tool's `execute` raises, the routing
cycle is not aborted - the router catches the exception at the call
site, synthesizes an `{error, details}` payload, appends it as a tool
turn, and still issues the result-formatting model call (the trace below
holds whatever the second call then does); when that call succeeds the
caller receives the indicator followed by the normally streamed final
answer, which is also committed as the assistant turn. -/
theorem c4_tool_exception_contained (tools : List ToolDesc) (mem : ConversationMemory)
    (query : String) (w : World) :
    ∀ tc td e, w.routing.err = none →
      extract_tool_call (String.join w.routing.chunks) = some tc →
      useToolCond tc = true →
      lookupToolName tools (jsonGet tc "tool_name") = some td →
      w.tool = Except.error e →
      ((processQuery tools mem query w).events =
          [Ev.modelCall CallKind.routing
              (buildRoutingMessages tools (add_user_message mem query) query),
            Ev.toolExec td.tool_name ((jsonGet tc "tool_parameters").getD (Json.obj [])),
            Ev.modelCall CallKind.format
              [⟨"user", get_tool_response_prompt td.tool_name
                  (synthToolError td.tool_name e) query⟩]])
        ∧ isErrorPayload (synthToolError td.tool_name e) = true
        ∧ (w.second.err = none →
            (processQuery tools mem query w).memory =
                add_assistant_message
                  (add_tool_message (add_user_message mem query) td.tool_name
                    (synthToolError td.tool_name e))
                  (String.join w.second.chunks)
              ∧ (processQuery tools mem query w).output =
                  ("I\x27ll check that for you using " ++ td.tool_name ++ "...\n\n")
                    :: w.second.chunks) := by
  intro tc td e h1 h2 h3 h4 h5
  refine ⟨?_, rfl, ?_⟩
  · simp only [processQuery, h1, h2, h3, if_true, h4, h5, toolResponseOf]
    cases h6 : w.second.err <;> rfl
  · intro h6
    simp only [processQuery, h1, h2, h3, if_true, h4, h5, h6, toolResponseOf]
    constructor <;> trivial

/-- A world where routing selects the weather tool and its execution
raises; the formatting call succeeds. -/
def c4World : World :=
  { routing := { chunks := [weatherCallText], err := none },
    second := { chunks := ["Sorry, the weather service is unreachable."], err := none },
    tool := Except.error "DNS failure" }

set_option maxRecDepth 8192 in
/-- Witness for C4 at a concrete raising world. -/
theorem c4_tool_exception_contained_witness :
    (processQuery [weatherToolDesc] (initMemory 10) "weather?" c4World).memory =
        add_assistant_message
          (add_tool_message (add_user_message (initMemory 10) "weather?") "get_weather"
            (synthToolError "get_weather" "DNS failure"))
          (String.join c4World.second.chunks)
      ∧ (processQuery [weatherToolDesc] (initMemory 10) "weather?" c4World).output =
          ("I\x27ll check that for you using get_weather...\n\n") :: c4World.second.chunks :=
  (c4_tool_exception_contained [weatherToolDesc] (initMemory 10) "weather?" c4World
    weatherCallIntent weatherToolDesc "DNS failure"
    (by rfl) (by rfl) (by rfl) (by rfl) (by rfl)).2.2 (by rfl)

/-- Claim C5: when the extracted intent names an unregistered capability,
the caller first receives the visible unavailability notice, then (when
the call succeeds) exactly the chunks of a separate general-knowledge
model call whose context is the generic helpful-assistant system prompt
plus the bare query - no tool context; no registered capability is
executed and routing is not re-attempted: the trace is exactly the
routing call followed by the fallback call. -/
theorem c5_unknown_tool_fallback (tools : List ToolDesc) (mem : ConversationMemory)
    (query : String) (w : World) :
    ∀ tc, w.routing.err = none →
      extract_tool_call (String.join w.routing.chunks) = some tc →
      useToolCond tc = true →
      lookupToolName tools (jsonGet tc "tool_name") = none →
      ((processQuery tools mem query w).output.head? =
          some (unavailableNotice (jsonGet tc "tool_name")))
        ∧ (w.second.err = none →
            (processQuery tools mem query w).output =
              unavailableNotice (jsonGet tc "tool_name") :: w.second.chunks)
        ∧ (processQuery tools mem query w).events =
            [Ev.modelCall CallKind.routing
                (buildRoutingMessages tools (add_user_message mem query) query),
              Ev.modelCall CallKind.fallback
                [⟨"system", genericSystemPrompt⟩, ⟨"user", query⟩]]
        ∧ hasToolExec (processQuery tools mem query w).events = false := by
  intro tc h1 h2 h3 h4
  refine ⟨?_, ?_, ?_, ?_⟩ <;>
    simp only [processQuery, answer_with_llm, h1, h2, h3, if_true, h4]
  · cases h5 : w.second.err <;> rfl
  · intro h5
    simp only [h5]
  · cases h5 : w.second.err <;> rfl
  · cases h5 : w.second.err <;> rfl

/-- A routing reply requesting the unregistered `get_unicorn_price`
capability (spec section 8, property 4). -/
def unicornCallText : String :=
  "```json\n\x7b\"use_tool\": true, \"tool_name\": \"get_unicorn_price\", \"tool_parameters\": \x7b\x7d\x7d\n```"

/-- The intent parsed from `unicornCallText`. -/
def unicornCallIntent : Json :=
  Json.obj [("use_tool", Json.bool true), ("tool_name", Json.str "get_unicorn_price"),
    ("tool_parameters", Json.obj [])]

/-- A world where routing requests the unregistered capability and the
fallback call succeeds. -/
def c5World : World :=
  { routing := { chunks := [unicornCallText], err := none },
    second := { chunks := ["I do not have unicorn price data."], err := none },
    tool := Except.ok Json.null }

set_option maxRecDepth 8192 in
/-- Witness for C5 at the unicorn world. -/
theorem c5_unknown_tool_fallback_witness :
    ((processQuery [weatherToolDesc, stockToolDesc] (initMemory 10) "unicorn price?"
          c5World).output =
        unavailableNotice (some (Json.str "get_unicorn_price")) :: c5World.second.chunks)
      ∧ hasToolExec (processQuery [weatherToolDesc, stockToolDesc] (initMemory 10)
          "unicorn price?" c5World).events = false :=
  ⟨(c5_unknown_tool_fallback [weatherToolDesc, stockToolDesc] (initMemory 10)
      "unicorn price?" c5World unicornCallIntent (by rfl) (by rfl) (by rfl) (by rfl)).2.1
      (by rfl),
   (c5_unknown_tool_fallback [weatherToolDesc, stockToolDesc] (initMemory 10)
      "unicorn price?" c5World unicornCallIntent (by rfl) (by rfl) (by rfl) (by rfl)).2.2.2⟩

/-- Claim C10: on the unknown-capability path, the assistant turn
committed to the ledger is exactly the fallback model answer - the
visible unavailability notice is yielded to the caller but never stored;
and when the fallback call itself fails, the apology is yielded after any
delivered chunks and no assistant turn is appended at all. -/
theorem c10_fallback_ledger (tools : List ToolDesc) (mem : ConversationMemory)
    (query : String) (w : World) :
    ∀ tc, w.routing.err = none →
      extract_tool_call (String.join w.routing.chunks) = some tc →
      useToolCond tc = true →
      lookupToolName tools (jsonGet tc "tool_name") = none →
      (w.second.err = none →
          (processQuery tools mem query w).memory =
              add_assistant_message (add_user_message mem query)
                (String.join w.second.chunks)
            ∧ (processQuery tools mem query w).output =
                unavailableNotice (jsonGet tc "tool_name") :: w.second.chunks)
        ∧ (∀ e, w.second.err = some e →
            (processQuery tools mem query w).memory = add_user_message mem query
              ∧ (processQuery tools mem query w).output =
                  unavailableNotice (jsonGet tc "tool_name") ::
                    (w.second.chunks ++
                      ["I encountered an error providing a general knowledge answer: "
                        ++ e])) := by
  intro tc h1 h2 h3 h4
  constructor
  · intro h5
    simp only [processQuery, answer_with_llm, h1, h2, h3, if_true, h4, h5]
    constructor <;> trivial
  · intro e h5
    simp only [processQuery, answer_with_llm, h1, h2, h3, if_true, h4, h5]
    constructor <;> trivial

/-- A world where routing requests the unregistered capability and the
fallback call then raises. -/
def c10World : World :=
  { routing := { chunks := [unicornCallText], err := none },
    second := { chunks := [], err := some "rate limited" },
    tool := Except.ok Json.null }

set_option maxRecDepth 8192 in
/-- Witness for C10 at a failing-fallback world: apology yielded, no
assistant turn appended. -/
theorem c10_fallback_ledger_witness :
    (processQuery [weatherToolDesc] (initMemory 10) "unicorn price?" c10World).memory =
        add_user_message (initMemory 10) "unicorn price?"
      ∧ (processQuery [weatherToolDesc] (initMemory 10) "unicorn price?" c10World).output =
          unavailableNotice (some (Json.str "get_unicorn_price")) ::
            (([] : List String) ++
              ["I encountered an error providing a general knowledge answer: "
                ++ "rate limited"]) :=
  (c10_fallback_ledger [weatherToolDesc] (initMemory 10) "unicorn price?" c10World
    unicornCallIntent (by rfl) (by rfl) (by rfl) (by rfl)).2 "rate limited" (by rfl)
